import Mathlib

set_option maxRecDepth 100000

/-!
Verification of the inflation-adjustment pipeline in `api.py`.

The embedding models:
* `CPIData.load_from_file` — ingestion of a raw CPI text source into a
  per-year averaged index (the Python loop over lines, with the `DATE `
  header skip, the per-year buffer, and the post-loop flush);
* `CPIData.get_adjusted_price` — the adjustment query with its clamping
  policy;
* `GiantbombAPI.get_platforms` — the paginated catalog loop (offsets,
  one-shot total capture, yields);
* `is_valid_datset` — the record validator, including the key-lookup
  error hidden in its diagnostics;
* the year-parse expression of `main`.

Python strings are modelled as `String` / `List Char`; Python `float`
values as `ℚ` (exact arithmetic standing in for IEEE doubles, which the
claims treat as real arithmetic); a raised exception as `Option.none`.
-/

/-- Whitespace characters recognised by Python's `str.split()` /
`str.rstrip()` (space, tab, newline, carriage return, vertical tab,
form feed). -/
def isWs (c : Char) : Bool :=
  c = ' ' || c = '\t' || c = '\n' || c = '\r' || c = Char.ofNat 11 || c = Char.ofNat 12

/-- Python `s.rstrip()` on the character list of a line. -/
def pyRstrip (cs : List Char) : List Char :=
  (cs.reverse.dropWhile isWs).reverse

/-- Python `s.strip()` (both sides). -/
def pyStrip (cs : List Char) : List Char :=
  ((cs.dropWhile isWs).reverse.dropWhile isWs).reverse

/-- Helper for `pySplitWs`: accumulates the current token (reversed). -/
def pySplitWsAux : List Char → List Char → List (List Char)
  | [], [] => []
  | [], tok => [tok.reverse]
  | c :: rest, tok =>
    if isWs c then
      match tok with
      | [] => pySplitWsAux rest []
      | _ => tok.reverse :: pySplitWsAux rest []
    else pySplitWsAux rest (c :: tok)

/-- Python `s.split()` with no argument: split on runs of whitespace,
no empty tokens. -/
def pySplitWs (cs : List Char) : List (List Char) :=
  pySplitWsAux cs []

/-- Helper for `pySplitOnChar`. -/
def pySplitOnCharAux (sep : Char) : List Char → List Char → List (List Char)
  | [], tok => [tok.reverse]
  | c :: rest, tok =>
    if c = sep then tok.reverse :: pySplitOnCharAux sep rest []
    else pySplitOnCharAux sep rest (c :: tok)

/-- Python `s.split(sep)` for a one-character separator: keeps empty
segments, always returns at least one segment. -/
def pySplitOnChar (sep : Char) (cs : List Char) : List (List Char) :=
  pySplitOnCharAux sep cs []

/-- Numeric value of a decimal digit list (`0` for `[]`; only meaningful
on all-digit lists). -/
def digitsToNat (cs : List Char) : Nat :=
  cs.foldl (fun acc c => acc * 10 + (c.toNat - 48)) 0

/-- All-digits, nonempty decimal parse. -/
def natOfDigits (cs : List Char) : Option Nat :=
  if cs ≠ [] ∧ cs.all Char.isDigit then some (digitsToNat cs) else none

/-- Python `int(s)` for a string argument: surrounding whitespace,
optional sign, decimal digits. (Underscore separators and non-decimal
bases are not used by this program and are not modelled.) -/
def pyParseInt (cs : List Char) : Option Int :=
  match pyStrip cs with
  | '-' :: rest => (natOfDigits rest).map (fun n => -(n : Int))
  | '+' :: rest => (natOfDigits rest).map (fun n => (n : Int))
  | stripped => (natOfDigits stripped).map (fun n => (n : Int))

/-- Unsigned part of Python `float(s)`: `digits`, `digits.digits`,
`digits.` or `.digits`. (Exponents and `inf`/`nan`, unused by the CPI
source, are not modelled.) -/
def pyParseFloatCore (cs : List Char) : Option ℚ :=
  match cs.dropWhile Char.isDigit with
  | [] => if cs.isEmpty then none else some ((digitsToNat cs : ℚ))
  | '.' :: fp =>
    let ip := cs.takeWhile Char.isDigit
    if fp.all Char.isDigit ∧ (ip ≠ [] ∨ fp ≠ []) then
      some ((digitsToNat ip : ℚ) + (digitsToNat fp : ℚ) / ((10 : ℚ) ^ fp.length))
    else none
  | _ => none

/-- Python `float(s)`: surrounding whitespace, optional sign, decimal
literal. -/
def pyParseFloat (cs : List Char) : Option ℚ :=
  match pyStrip cs with
  | '-' :: rest => (pyParseFloatCore rest).map (fun q => -q)
  | '+' :: rest => pyParseFloatCore rest
  | stripped => pyParseFloatCore stripped

/-- `line.startswith("DATE ")`. -/
def startsWithDATE (line : String) : Bool :=
  List.isPrefixOf ['D', 'A', 'T', 'E', ' '] line.data

/-- The CPI index: `year_cpi` is the Python dict (modelled as an
insertion-ordered association list), together with `first_year` and
`last_year` (`None` initially). -/
structure CPIData where
  year_cpi : List (Int × ℚ)
  first_year : Option Int
  last_year : Option Int
deriving DecidableEq

/-- Python dict lookup `m[y]` (`none` = `KeyError`). -/
def dictGet? : List (Int × ℚ) → Int → Option ℚ
  | [], _ => none
  | (k, v) :: rest, y => if k = y then some v else dictGet? rest y

/-- Python `y in m`. -/
def dictContains (m : List (Int × ℚ)) (y : Int) : Bool :=
  (dictGet? m y).isSome

/-- Python dict assignment `m[y] = v`: replace in place if the key
exists, else append. -/
def dictInsert : List (Int × ℚ) → Int → ℚ → List (Int × ℚ)
  | [], y, v => [(y, v)]
  | (k, w) :: rest, y, v =>
    if k = y then (k, v) :: rest else (k, w) :: dictInsert rest y v

/-- `sum(year_cpi) / len(year_cpi)`. -/
def listMean (vs : List ℚ) : ℚ :=
  vs.sum / (vs.length : ℚ)

/-- The mutable state of the `load_from_file` loop: the
`reached_dataset` flag, the `current_year` variable, the local
`year_cpi` buffer of the year being accumulated, and the `CPIData`
object itself. -/
structure LoadState where
  reached_dataset : Bool
  current_year : Option Int
  year_cpi_buf : List ℚ
  self : CPIData
deriving DecidableEq

/-- The whitespace fields of a data line: `line.rstrip().split()`. -/
def lineFields (line : String) : List (List Char) :=
  pySplitWs (pyRstrip line.data)

/-- The year segment of a data line: `data[0].split("-")[0]` (empty when
the line has no fields). -/
def lineYearSeg (line : String) : List Char :=
  (pySplitOnChar '-' ((lineFields line).headD [])).headD []

/-- Parse one data line exactly as the loop body does:
`year = int(data[0].split("-")[0])`, `cpi = float(data[1])`; `none`
models the `IndexError` / `ValueError` raised on a malformed line. -/
def parseDataLine (line : String) : Option (Int × ℚ) :=
  match (lineFields line)[0]? with
  | none => none
  | some _ =>
    match pyParseInt (lineYearSeg line) with
    | none => none
    | some year =>
      match (lineFields line)[1]? with
      | none => none
      | some d1 =>
        match pyParseFloat d1 with
        | none => none
        | some cpi => some (year, cpi)

/-- One well-formed observation `(year, cpi)` applied to the loop state:
the `first_year` / `last_year` updates, the commit-on-year-transition,
and the buffer append. -/
def obsStep (s : LoadState) (obs : Int × ℚ) : LoadState :=
  let year := obs.1
  let cpi := obs.2
  let d1 : CPIData :=
    { s.self with
      first_year := match s.self.first_year with
        | none => some year
        | some f => some f
      last_year := some year }
  if s.current_year ≠ some year then
    let d2 : CPIData := match s.current_year with
      | none => d1
      | some cy =>
        { d1 with year_cpi := dictInsert d1.year_cpi cy (listMean s.year_cpi_buf) }
    { s with current_year := some year, year_cpi_buf := [cpi], self := d2 }
  else
    { s with year_cpi_buf := s.year_cpi_buf ++ [cpi], self := d1 }

/-- One line of the loop: skip until the `DATE ` header, then parse and
apply; a malformed data line raises (`none`). -/
def lineStep (s : LoadState) (line : String) : Option LoadState :=
  if s.reached_dataset = false then
    if startsWithDATE line then some { s with reached_dataset := true } else some s
  else
    match parseDataLine line with
    | none => none
    | some oc => some (obsStep s oc)

/-- The post-loop flush: commit the final year's buffer unless that year
is already present. -/
def finishLoad (s : LoadState) : CPIData :=
  match s.current_year with
  | none => s.self
  | some cy =>
    if dictContains s.self.year_cpi cy then s.self
    else { s.self with year_cpi := dictInsert s.self.year_cpi cy (listMean s.year_cpi_buf) }

/-- The state at the top of `load_from_file` on a fresh `CPIData`. -/
def initLoadState : LoadState :=
  ⟨false, none, [], ⟨[], none, none⟩⟩

/-- `CPIData.load_from_file` on a fresh instance, fed the source line by
line; `none` models a raised exception. -/
def load_from_file (lines : List String) : Option CPIData :=
  (lines.foldlM lineStep initLoadState).map finishLoad

/-- The lines after the first `DATE ` header line (`[]` when no header
occurs: the loop then skips every line). -/
def dataLines : List String → List String
  | [] => []
  | l :: rest => if startsWithDATE l then rest else dataLines rest

/-- The parsed observations of a source (`none` when some data line is
malformed). -/
def extractObs (lines : List String) : Option (List (Int × ℚ)) :=
  (dataLines lines).mapM parseDataLine

/-- The loop state right after the header line has been consumed. -/
def dataInit : LoadState :=
  ⟨true, none, [], ⟨[], none, none⟩⟩

/-- The `to_year` clamp of `get_adjusted_price`: `None` or anything
above 2018 becomes 2018. -/
def clampToYear (current_year : Option Int) : Int :=
  match current_year with
  | none => 2018
  | some c => if 2018 < c then 2018 else c

/-- The `from_year` clamp of `get_adjusted_price`: years outside
`[first_year, last_year]` use the nearest boundary. -/
def clampFromYear (fy ly y : Int) : Int :=
  if y < fy then fy else if ly < y then ly else y

/-- `CPIData.get_adjusted_price`. A `None` bound (empty index: the
Python `year < self.first_year` comparison raises) or a missing dict key
(`KeyError`) yields `none`. -/
def CPIData.get_adjusted_price (d : CPIData) (price : ℚ) (year : Int)
    (current_year : Option Int := none) : Option ℚ :=
  let cy := clampToYear current_year
  match d.first_year, d.last_year with
  | some fy, some ly =>
    let y := clampFromYear fy ly year
    match dictGet? d.year_cpi y, dictGet? d.year_cpi cy with
    | some year_cpi, some current_cpi => some (price / year_cpi * current_cpi)
    | _, _ => none
  | _, _ => none

/-! ### Catalog Client: `GiantbombAPI.get_platforms` -/

/-- One decoded JSON page of the `/platforms/` endpoint: the fields of
`result` the loop reads. -/
structure PageResponse (α : Type) where
  number_of_total_results : Nat
  number_of_page_results : Nat
  results : List α
deriving DecidableEq

/-- The `while incomplete_result` loop of `get_platforms`, for an
always-successful transport `api : offset → page`. Accumulates the
offsets of the issued requests and the yielded items; the total is
captured from the first response only (`num_total_results is None`
check). `fuel` bounds the number of iterations so the model is total;
`none` means the loop did not terminate within `fuel` requests. -/
def get_platforms_aux {α : Type} (api : Nat → PageResponse α) :
    Nat → Nat → Option Nat → List Nat → List α → Option (List Nat × List α)
  | 0, _, _, _, _ => none
  | fuel + 1, num_fetched_results, num_total_results, offsets, yielded =>
    let offset := num_fetched_results
    let result := api offset
    let total := match num_total_results with
      | none => result.number_of_total_results
      | some t => t
    let fetched := num_fetched_results + result.number_of_page_results
    let offsets := offsets ++ [offset]
    let yielded := yielded ++ result.results
    if total ≤ fetched then some (offsets, yielded)
    else get_platforms_aux api fuel fetched (some total) offsets yielded

/-- `GiantbombAPI.get_platforms`: the list of request offsets issued and
the items yielded. -/
def get_platforms {α : Type} (api : Nat → PageResponse α) (fuel : Nat) :
    Option (List Nat × List α) :=
  get_platforms_aux api fuel 0 none [] []

/-- A remote catalog over an underlying record list: reports
`totals offset` as `number_of_total_results` and serves pages of at most
100 records starting at `offset`. -/
def mockCatalog {α : Type} (catalog : List α) (totals : Nat → Nat)
    (offset : Nat) : PageResponse α :=
  let page := (catalog.drop offset).take 100
  ⟨totals offset, page.length, page⟩

/-! ### Record Validator: `is_valid_datset` -/

/-- A Python value stored in a platform record. -/
inductive PyVal where
  | vstr : String → PyVal
  | vnum : ℚ → PyVal
  | vnone : PyVal
deriving DecidableEq

/-- Python truthiness of a record value: empty string, zero and `None`
are falsy. -/
def truthy : PyVal → Bool
  | .vstr s => !s.data.isEmpty
  | .vnum q => q ≠ 0
  | .vnone => false

/-- Python dict lookup on a platform record (`none` = key absent). -/
def recordGet? : List (String × PyVal) → String → Option PyVal
  | [], _ => none
  | (k, v) :: rest, key => if k = key then some v else recordGet? rest key

/-- The test `key not in platform or not platform[key]` guarding each
diagnostic of `is_valid_datset`. -/
def fieldAbsent (p : List (String × PyVal)) (key : String) : Bool :=
  match recordGet? p key with
  | none => true
  | some v => !truthy v

/-- `is_valid_datset`. The release-date, price and abbreviation
diagnostics interpolate `platform['name']`, so when the `name` key is
absent those branches raise `KeyError` (modelled as `none`) instead of
returning `False`; the name branch itself does not read `name` and
returns `False` cleanly. -/
def is_valid_datset (p : List (String × PyVal)) : Option Bool :=
  if fieldAbsent p "release_date" then (recordGet? p "name").map (fun _ => false)
  else if fieldAbsent p "original_price" then (recordGet? p "name").map (fun _ => false)
  else if fieldAbsent p "name" then some false
  else if fieldAbsent p "abbreviation" then (recordGet? p "name").map (fun _ => false)
  else some true

/-- The record passes the check for `key`. -/
def fieldOk (p : List (String × PyVal)) (key : String) : Bool :=
  !fieldAbsent p key

/-! ### Pipeline Orchestrator: the year-parse expression of `main` -/

/-- An argument passed to Python's `int(...)` in `main`: either a string
or a list of strings (the result of `str.split`). -/
inductive PyIntArg where
  | ofString : List Char → PyIntArg
  | ofList : List (List Char) → PyIntArg

/-- Python `int(...)` on such an argument: a list argument raises
`TypeError` (`none`); a string argument parses. -/
def pyIntFn : PyIntArg → Option Int
  | .ofString s => pyParseInt s
  | .ofList _ => none

/-- The year-parse expression of `main`:
`int(platform['release_date'].split('-'[0]))`. Since `'-'[0]` is the
one-character string `'-'`, this applies `int(...)` to the full list of
segments produced by `split`. -/
def main_release_year (release_date : String) : Option Int :=
  pyIntFn (.ofList (pySplitOnChar '-' release_date.data))

/-- Modelled from the spec: "parse the release year from the
release-date string's leading 4-digit segment" — `int(...)` of the
segment before the first `-` delimiter. -/
def spec_release_year (release_date : String) : Option Int :=
  pyIntFn (.ofString ((pySplitOnChar '-' release_date.data).headD []))

/-- The observation list of a source in which the data lines of each
year form one contiguous block: group `(y, vs)` contributes the
observations `(y, v)` for `v ∈ vs`, in order. -/
def flatObs (groups : List (Int × List ℚ)) : List (Int × ℚ) :=
  groups.flatMap (fun g => g.2.map (fun v => (g.1, v)))

/-! ### Bridge: the line loop equals header-skip, parse, then a pure
observation fold -/

theorem obsStep_reached (s : LoadState) (ob : Int × ℚ) :
    (obsStep s ob).reached_dataset = s.reached_dataset := by
  unfold obsStep
  dsimp only
  split <;> rfl

theorem foldlM_lineStep_data (lines : List String) (s : LoadState)
    (h : s.reached_dataset = true) :
    lines.foldlM lineStep s =
      (lines.mapM parseDataLine).map (fun obs => obs.foldl obsStep s) := by
  induction lines generalizing s with
  | nil => rfl
  | cons l rest ih =>
    rw [List.foldlM_cons, List.mapM_cons]
    have hstep : lineStep s l = (parseDataLine l).map (fun oc => obsStep s oc) := by
      unfold lineStep
      rw [h]
      cases parseDataLine l <;> rfl
    rw [hstep]
    cases hp : parseDataLine l with
    | none => rfl
    | some oc =>
      have hr : (obsStep s oc).reached_dataset = true := by
        rw [obsStep_reached, h]
      show rest.foldlM lineStep (obsStep s oc) = _
      rw [ih (obsStep s oc) hr]
      cases hm : rest.mapM parseDataLine with
      | none => rfl
      | some os => simp [List.foldl_cons]

theorem load_from_file_eq (lines : List String) :
    load_from_file lines =
      (extractObs lines).map (fun obs => finishLoad (obs.foldl obsStep dataInit)) := by
  induction lines with
  | nil => rfl
  | cons l rest ih =>
    by_cases hD : startsWithDATE l
    · have h1 : lineStep initLoadState l = some dataInit := by
        unfold lineStep initLoadState dataInit
        simp [hD]
      unfold load_from_file
      rw [List.foldlM_cons, h1]
      show Option.map finishLoad (rest.foldlM lineStep dataInit) = _
      rw [foldlM_lineStep_data rest dataInit rfl]
      unfold extractObs dataLines
      simp only [hD, if_true, Option.map_map]
      rfl
    · have h1 : lineStep initLoadState l = some initLoadState := by
        unfold lineStep initLoadState
        simp [hD]
      unfold load_from_file
      rw [List.foldlM_cons, h1]
      show Option.map finishLoad (rest.foldlM lineStep initLoadState) = _
      have h2 : dataLines (l :: rest) = dataLines rest := by
        simp only [dataLines, hD, if_false]
        rfl
      unfold extractObs
      rw [h2]
      exact ih

/-! ### Option `mapM` and association-list helper lemmas -/

theorem mapM_option_eq_none {α β : Type} (f : α → Option β) (l : List α) :
    l.mapM f = none ↔ ∃ a ∈ l, f a = none := by
  induction l with
  | nil =>
    refine iff_of_false (fun h => Option.noConfusion h) ?_
    simp
  | cons a l ih =>
    rw [List.mapM_cons]
    constructor
    · intro h
      cases hf : f a with
      | none => exact ⟨a, List.mem_cons_self a l, hf⟩
      | some b =>
        rw [hf] at h
        cases hl : l.mapM f with
        | none =>
          obtain ⟨x, hx, hfx⟩ := ih.mp hl
          exact ⟨x, List.mem_cons_of_mem a hx, hfx⟩
        | some bs =>
          rw [hl] at h
          exact Option.noConfusion h
    · rintro ⟨x, hx, hfx⟩
      rcases List.mem_cons.mp hx with rfl | hx'
      · rw [hfx]
        rfl
      · cases hf : f a with
        | none => rfl
        | some b =>
          rw [ih.mpr ⟨x, hx', hfx⟩]
          rfl

theorem dictGet?_append (a b : List (Int × ℚ)) (k : Int) :
    dictGet? (a ++ b) k =
      match dictGet? a k with
      | none => dictGet? b k
      | some v => some v := by
  induction a with
  | nil => rfl
  | cons p rest ih =>
    obtain ⟨k', v'⟩ := p
    by_cases h : k' = k
    · simp [dictGet?, h]
    · simp [dictGet?, h, ih]

theorem dictGet?_eq_none (m : List (Int × ℚ)) (k : Int) :
    dictGet? m k = none ↔ k ∉ m.map Prod.fst := by
  induction m with
  | nil => simp [dictGet?]
  | cons p rest ih =>
    obtain ⟨k', v'⟩ := p
    by_cases h : k' = k
    · subst h
      simp [dictGet?]
    · simp only [dictGet?, h, if_false, List.map_cons, List.mem_cons, ih]
      constructor
      · intro hk hor
        rcases hor with h1 | h2
        · exact h h1.symm
        · exact hk h2
      · intro hk h2
        exact hk (Or.inr h2)

theorem dictInsert_absent (m : List (Int × ℚ)) (k : Int) (v : ℚ)
    (h : dictGet? m k = none) : dictInsert m k v = m ++ [(k, v)] := by
  induction m with
  | nil => rfl
  | cons p rest ih =>
    obtain ⟨k', v'⟩ := p
    by_cases hk : k' = k
    · simp [dictGet?, hk] at h
    · simp only [dictGet?, hk, if_false] at h
      simp [dictInsert, hk, ih h]

/-! ### Tracking `first_year` and `last_year` through the loop -/

theorem obsStep_last (s : LoadState) (ob : Int × ℚ) :
    (obsStep s ob).self.last_year = some ob.1 := by
  unfold obsStep
  dsimp only
  split
  · split <;> rfl
  · rfl

theorem obsStep_first (s : LoadState) (ob : Int × ℚ) :
    (obsStep s ob).self.first_year =
      match s.self.first_year with
      | none => some ob.1
      | some f => some f := by
  unfold obsStep
  dsimp only
  split
  · split <;> rfl
  · rfl

theorem foldl_obsStep_first (obs : List (Int × ℚ)) (s : LoadState) (f : Int)
    (h : s.self.first_year = some f) :
    (List.foldl obsStep s obs).self.first_year = some f := by
  induction obs generalizing s with
  | nil => exact h
  | cons o rest ih =>
    rw [List.foldl_cons]
    exact ih _ (by rw [obsStep_first, h])

theorem foldl_obsStep_last (obs : List (Int × ℚ)) (s : LoadState) (o : Int × ℚ) :
    (List.foldl obsStep s (o :: obs)).self.last_year = some ((obs.getLastD o).1) := by
  induction obs generalizing s o with
  | nil => exact obsStep_last s o
  | cons o' rest ih =>
    rw [List.foldl_cons, List.getLastD_cons]
    exact ih (obsStep s o) o'

theorem finishLoad_first (s : LoadState) :
    (finishLoad s).first_year = s.self.first_year := by
  unfold finishLoad
  split
  · rfl
  · split <;> rfl

theorem finishLoad_last (s : LoadState) :
    (finishLoad s).last_year = s.self.last_year := by
  unfold finishLoad
  split
  · rfl
  · split <;> rfl

/-! ### The loop on a source whose years form contiguous blocks -/

theorem obsStep_same_year (r : Bool) (y : Int) (buf : List ℚ)
    (m : List (Int × ℚ)) (f : Int) (v : ℚ) :
    obsStep ⟨r, some y, buf, ⟨m, some f, some y⟩⟩ (y, v) =
      ⟨r, some y, buf ++ [v], ⟨m, some f, some y⟩⟩ := by
  unfold obsStep
  dsimp only
  rw [if_neg (by simp)]

theorem obsStep_new_year (r : Bool) (y : Int) (buf : List ℚ)
    (m : List (Int × ℚ)) (f : Int) (y' : Int) (v : ℚ) (hne : y' ≠ y) :
    obsStep ⟨r, some y, buf, ⟨m, some f, some y⟩⟩ (y', v) =
      ⟨r, some y', [v], ⟨dictInsert m y (listMean buf), some f, some y'⟩⟩ := by
  unfold obsStep
  dsimp only
  rw [if_pos (by simpa using hne.symm)]

theorem obsStep_dataInit (y : Int) (v : ℚ) :
    obsStep dataInit (y, v) = ⟨true, some y, [v], ⟨[], some y, some y⟩⟩ := rfl

theorem foldl_same_year (vs : List ℚ) (r : Bool) (y : Int) (buf : List ℚ)
    (m : List (Int × ℚ)) (f : Int) :
    List.foldl obsStep ⟨r, some y, buf, ⟨m, some f, some y⟩⟩
        (vs.map (fun v => (y, v))) =
      ⟨r, some y, buf ++ vs, ⟨m, some f, some y⟩⟩ := by
  induction vs generalizing buf with
  | nil => simp
  | cons v vtl ih =>
    rw [List.map_cons, List.foldl_cons, obsStep_same_year, ih (buf ++ [v])]
    simp

theorem foldl_groups (groups : List (Int × List ℚ)) :
    ∀ (r : Bool) (y : Int) (buf : List ℚ) (m : List (Int × ℚ)) (f : Int),
      y ∉ groups.map Prod.fst →
      (groups.map Prod.fst).Nodup →
      (∀ g ∈ groups, g.2 ≠ []) →
      List.foldl obsStep ⟨r, some y, buf, ⟨m, some f, some y⟩⟩ (flatObs groups) =
        ⟨r, some (groups.getLastD (y, buf)).1, (groups.getLastD (y, buf)).2,
          ⟨(((y, buf) :: groups).dropLast).foldl
              (fun acc g => dictInsert acc g.1 (listMean g.2)) m,
            some f, some (groups.getLastD (y, buf)).1⟩⟩ := by
  induction groups with
  | nil =>
    intro r y buf m f _ _ _
    simp [flatObs]
  | cons g gs ih =>
    intro r y buf m f hnotin hnd hne
    obtain ⟨y', vs'⟩ := g
    obtain ⟨v, vtl, rfl⟩ : ∃ v vtl, vs' = v :: vtl := by
      cases hvs : vs' with
      | nil => exact absurd (hvs ▸ rfl) (hne (y', vs') (List.mem_cons_self _ _))
      | cons v vtl => exact ⟨v, vtl, rfl⟩
    have hy' : y' ≠ y := by
      intro h
      exact hnotin (h ▸ List.mem_map_of_mem Prod.fst (List.mem_cons_self _ _))
    have hstep :
        flatObs ((y', v :: vtl) :: gs) =
          ((v :: vtl).map (fun w => (y', w))) ++ flatObs gs := by
      unfold flatObs
      rw [List.flatMap_cons]
    rw [hstep, List.foldl_append, List.map_cons, List.foldl_cons,
      obsStep_new_year r y buf m f y' v hy',
      foldl_same_year vtl r y' [v] (dictInsert m y (listMean buf)) f]
    have hkeys := hnd
    rw [List.map_cons, List.nodup_cons] at hkeys
    rw [ih r y' ([v] ++ vtl) (dictInsert m y (listMean buf)) f hkeys.1 hkeys.2
      (fun g hg => hne g (List.mem_cons_of_mem _ hg))]
    rw [List.getLastD_cons]
    rfl

theorem foldl_dictInsert_absent (gs : List (Int × List ℚ)) :
    ∀ (acc : List (Int × ℚ)),
      (∀ g ∈ gs, dictGet? acc g.1 = none) →
      (gs.map Prod.fst).Nodup →
      gs.foldl (fun m g => dictInsert m g.1 (listMean g.2)) acc =
        acc ++ gs.map (fun g => (g.1, listMean g.2)) := by
  induction gs with
  | nil =>
    intro acc _ _
    simp
  | cons g tl ih =>
    intro acc habs hnd
    rw [List.map_cons, List.nodup_cons] at hnd
    rw [List.foldl_cons, dictInsert_absent acc g.1 (listMean g.2)
      (habs g (List.mem_cons_self _ _))]
    rw [ih (acc ++ [(g.1, listMean g.2)]) ?_ hnd.2]
    · simp
    · intro g' hg'
      rw [dictGet?_append, habs g' (List.mem_cons_of_mem _ hg')]
      have hne : ¬g.1 = g'.1 := by
        intro h
        exact hnd.1 (h ▸ List.mem_map_of_mem Prod.fst hg')
      simp [dictGet?, hne]

theorem mem_flatObs_fst (tl : List (Int × List ℚ)) (a : Int × ℚ)
    (ha : a ∈ flatObs tl) : a.1 ∈ tl.map Prod.fst := by
  unfold flatObs at ha
  rw [List.mem_flatMap] at ha
  obtain ⟨g, hg, ha2⟩ := ha
  rw [List.mem_map] at ha2
  obtain ⟨v, _, rfl⟩ := ha2
  exact List.mem_map_of_mem Prod.fst hg

theorem finishLoad_some (r : Bool) (cy : Int) (buf : List ℚ) (d : CPIData) :
    finishLoad ⟨r, some cy, buf, d⟩ =
      if dictContains d.year_cpi cy then d
      else { d with year_cpi := dictInsert d.year_cpi cy (listMean buf) } := rfl

/-- The final index of a grouped source: one entry per group, holding
that group's mean, in group order. -/
theorem runObs_grouped_dict (groups : List (Int × List ℚ))
    (hnd : (groups.map Prod.fst).Nodup)
    (hne : ∀ g ∈ groups, g.2 ≠ []) :
    (finishLoad (List.foldl obsStep dataInit (flatObs groups))).year_cpi =
      groups.map (fun g => (g.1, listMean g.2)) := by
  cases groups with
  | nil => rfl
  | cons g gs =>
    obtain ⟨y, vs⟩ := g
    obtain ⟨v, vtl, rfl⟩ : ∃ v vtl, vs = v :: vtl := by
      cases hvs : vs with
      | nil => exact absurd (hvs ▸ rfl) (hne (y, vs) (List.mem_cons_self _ _))
      | cons v vtl => exact ⟨v, vtl, rfl⟩
    have hkeys := hnd
    rw [List.map_cons, List.nodup_cons] at hkeys
    have hstep :
        flatObs ((y, v :: vtl) :: gs) =
          ((v :: vtl).map (fun w => (y, w))) ++ flatObs gs := by
      unfold flatObs
      rw [List.flatMap_cons]
    rw [hstep, List.foldl_append, List.map_cons, List.foldl_cons,
      obsStep_dataInit, foldl_same_year vtl true y [v] [] y,
      foldl_groups gs true y ([v] ++ vtl) [] y hkeys.1 hkeys.2
        (fun g hg => hne g (List.mem_cons_of_mem _ hg))]
    -- the committed groups are all but the last; the flush adds the last
    have hdrop :
        (((y, [v] ++ vtl) :: gs).dropLast).foldl
            (fun acc g => dictInsert acc g.1 (listMean g.2)) [] =
          (((y, [v] ++ vtl) :: gs).dropLast).map (fun g => (g.1, listMean g.2)) := by
      rw [foldl_dictInsert_absent _ [] (fun _ _ => rfl) ?_]
      · rw [List.nil_append]
      · have hsub : ((((y, [v] ++ vtl) :: gs).dropLast).map Prod.fst).Sublist
            ((((y, [v] ++ vtl) :: gs)).map Prod.fst) :=
          (List.dropLast_sublist _).map Prod.fst
        exact hsub.nodup hnd
    have hfull := List.dropLast_concat_getLast
      (l := (y, [v] ++ vtl) :: gs) (List.cons_ne_nil _ _)
    have hlastD : ((y, [v] ++ vtl) :: gs).getLast (List.cons_ne_nil _ _) =
        gs.getLastD (y, [v] ++ vtl) := by
      rw [List.getLast_eq_getLastD]
    have hlast_notin :
        (gs.getLastD (y, [v] ++ vtl)).1 ∉
          ((((y, [v] ++ vtl) :: gs).dropLast).map Prod.fst) := by
      intro hmem
      have hnd2 : ((((y, [v] ++ vtl) :: gs).dropLast).map Prod.fst ++
          [((gs.getLastD (y, [v] ++ vtl)).1)]).Nodup := by
        have : (((y, [v] ++ vtl) :: gs).dropLast ++
            [gs.getLastD (y, [v] ++ vtl)]).map Prod.fst =
            (((y, [v] ++ vtl) :: gs).dropLast).map Prod.fst ++
              [(gs.getLastD (y, [v] ++ vtl)).1] := by
          rw [List.map_append]
          rfl
        rw [← this, ← hlastD, hfull]
        exact hnd
      rw [List.nodup_append] at hnd2
      exact hnd2.2.2 hmem (List.mem_singleton.mpr rfl)
    rw [finishLoad_some]
    dsimp only
    have hcontains :
        dictContains
          ((((y, [v] ++ vtl) :: gs).dropLast).foldl
            (fun acc g => dictInsert acc g.1 (listMean g.2)) [])
          ((gs.getLastD (y, [v] ++ vtl)).1) = false := by
      rw [hdrop]
      unfold dictContains
      rw [(dictGet?_eq_none _ _).mpr ?_]
      · rfl
      · rw [List.map_map]
        exact fun hmem => hlast_notin (by simpa using hmem)
    rw [hcontains]
    simp only [Bool.false_eq_true, if_false]
    rw [hdrop, dictInsert_absent _ _ _ ((dictGet?_eq_none _ _).mpr ?_)]
    · have hmapfull :
          (((y, [v] ++ vtl) :: gs).dropLast).map (fun g => (g.1, listMean g.2)) ++
            [((gs.getLastD (y, [v] ++ vtl)).1,
              listMean (gs.getLastD (y, [v] ++ vtl)).2)] =
          ((y, [v] ++ vtl) :: gs).map (fun g => (g.1, listMean g.2)) := by
        have hsingle :
            [((gs.getLastD (y, [v] ++ vtl)).1,
              listMean (gs.getLastD (y, [v] ++ vtl)).2)] =
              List.map (fun g => ((g : Int × List ℚ).1, listMean g.2))
                [gs.getLastD (y, [v] ++ vtl)] := rfl
        rw [hsingle, ← List.map_append, ← hlastD, hfull]
      rw [hmapfull]
      rfl
    · rw [List.map_map]
      exact fun hmem => hlast_notin (by simpa using hmem)

theorem dictGet?_map_mean (groups : List (Int × List ℚ)) (y : Int) (vs : List ℚ)
    (hnd : (groups.map Prod.fst).Nodup) (hy : (y, vs) ∈ groups) :
    dictGet? (groups.map (fun g => (g.1, listMean g.2))) y = some (listMean vs) := by
  induction groups with
  | nil => cases hy
  | cons g tl ih =>
    rw [List.map_cons, List.nodup_cons] at hnd
    rcases List.mem_cons.mp hy with heq | hy'
    · rw [← heq]
      simp [dictGet?]
    · have hne : ¬g.1 = y := by
        intro h
        exact hnd.1 (h ▸ List.mem_map_of_mem Prod.fst hy')
      rw [List.map_cons]
      show dictGet? ((g.1, listMean g.2) :: tl.map (fun g => (g.1, listMean g.2))) y = _
      rw [dictGet?]
      rw [if_neg hne]
      exact ih hnd.2 hy'

theorem flatObs_filter_not_mem (tl : List (Int × List ℚ)) (y : Int)
    (hnot : y ∉ tl.map Prod.fst) :
    (flatObs tl).filter (fun o => o.1 == y) = [] := by
  rw [List.filter_eq_nil_iff]
  intro a ha
  have h1 := mem_flatObs_fst tl a ha
  simp only [beq_iff_eq]
  intro h
  exact hnot (h ▸ h1)

theorem flatObs_filter (groups : List (Int × List ℚ)) (y : Int) (vs : List ℚ)
    (hnd : (groups.map Prod.fst).Nodup) (hy : (y, vs) ∈ groups) :
    ((flatObs groups).filter (fun o => o.1 == y)).map Prod.snd = vs := by
  induction groups with
  | nil => cases hy
  | cons g tl ih =>
    rw [List.map_cons, List.nodup_cons] at hnd
    have hstep : flatObs (g :: tl) = (g.2.map (fun w => (g.1, w))) ++ flatObs tl := by
      unfold flatObs
      rw [List.flatMap_cons]
    rw [hstep, List.filter_append, List.map_append]
    rcases List.mem_cons.mp hy with heq | hy'
    · have hg1 : g.1 = y := by rw [← heq]
      have hg2 : g.2 = vs := by rw [← heq]
      have h1 : (g.2.map (fun w => (g.1, w))).filter (fun o => o.1 == y) =
          g.2.map (fun w => (g.1, w)) := by
        rw [List.filter_eq_self]
        intro a ha
        rw [List.mem_map] at ha
        obtain ⟨w, _, rfl⟩ := ha
        simpa using hg1
      rw [h1, flatObs_filter_not_mem tl y (hg1 ▸ hnd.1), List.map_map]
      simp [hg2]
    · have hne : g.1 ≠ y := by
        intro h
        exact hnd.1 (h ▸ List.mem_map_of_mem Prod.fst hy')
      have h1 : (g.2.map (fun w => (g.1, w))).filter (fun o => o.1 == y) = [] := by
        rw [List.filter_eq_nil_iff]
        intro a ha
        rw [List.mem_map] at ha
        obtain ⟨w, _, rfl⟩ := ha
        simpa using hne
      rw [h1, ih hnd.2 hy']
      rfl

/-! ### Shared characterization of `get_adjusted_price` -/

theorem get_adjusted_price_spec (d : CPIData) (price : ℚ) (year : Int)
    (current_year : Option Int) (fy ly : Int)
    (hf : d.first_year = some fy) (hl : d.last_year = some ly)
    (a b : ℚ)
    (ha : dictGet? d.year_cpi (clampFromYear fy ly year) = some a)
    (hb : dictGet? d.year_cpi (clampToYear current_year) = some b) :
    d.get_adjusted_price price year current_year = some (price / a * b) := by
  unfold CPIData.get_adjusted_price
  rw [hf, hl]
  dsimp only
  rw [ha, hb]

/-! ### Claims -/

/-- C1: the Pipeline Orchestrator is claimed to parse the release year
as the integer value of the leading segment of the release-date string
before the first `-`. The code instead evaluates
`int(platform['release_date'].split('-'[0]))` — `'-'[0]` is `'-'`, so
`int(...)` receives the whole list of segments and raises `TypeError`
on every valid record. The spec-modelled parse of the same date
succeeds with 1995. -/
theorem C1_main_year_parse_crashes :
    main_release_year "1995-09-09" = none ∧
    spec_release_year "1995-09-09" = some 1995 := by
  constructor
  · rfl
  · with_unfolding_all decide

/-- C6 (amended): when `to_year` is omitted the query behaves exactly
as if `to_year = 2018` had been passed — the reference year is the
fixed horizon 2018, not the minimum of `last_year` and 2018; the query
fails on a non-empty index that does not cover 2018. -/
theorem C6_default_reference_year (d : CPIData) (price : ℚ) (year : Int) :
    d.get_adjusted_price price year none =
      d.get_adjusted_price price year (some 2018) := by
  unfold CPIData.get_adjusted_price
  have h : clampToYear (some 2018) = clampToYear none := by
    unfold clampToYear
    dsimp only
    rw [if_neg (by omega)]
  rw [h]

/-- C6 counterexample: a non-empty index covering only year 2010
(`last_year = 2010`). With `to_year` omitted, the claim says the
reference year is `min(last_year, 2018) = 2010` and the query succeeds
(yielding `5`); the code looks up 2018 and fails. -/
theorem C6_counterexample :
    (load_from_file ["DATE X", "2010-01-01 100"]).map
        (fun d => (d.get_adjusted_price 5 2010 none, d.year_cpi, d.last_year)) =
      some (none, [(2010, 100)], some 2010) := by
  with_unfolding_all decide

/-- C3 (amended): on an index with both bounds set, the query clamps
`to_year` to 2018 when omitted or above 2018, clamps `from_year` to
`[first_year, last_year]`, and — provided both clamped years are
present in the index — returns `price / cpi[from_year] * cpi[to_year]`
(with the clamped years); when a clamped year is absent the query
raises `KeyError` instead of returning. -/
theorem C3_adjusted_price_formula (d : CPIData) (price : ℚ) (year : Int)
    (current_year : Option Int) (fy ly : Int)
    (hf : d.first_year = some fy) (hl : d.last_year = some ly)
    (a b : ℚ)
    (ha : dictGet? d.year_cpi (clampFromYear fy ly year) = some a)
    (hb : dictGet? d.year_cpi (clampToYear current_year) = some b) :
    d.get_adjusted_price price year current_year = some (price / a * b) :=
  get_adjusted_price_spec d price year current_year fy ly hf hl a b ha hb

/-- C3 witness: index `{2000 ↦ 100, 2018 ↦ 200}`, price 50, from 1990
(clamped up to 2000), `to_year` omitted (clamped to 2018). -/
theorem C3_witness :
    (⟨[(2000, 100), (2018, 200)], some 2000, some 2018⟩ : CPIData).get_adjusted_price
        50 1990 none = some (50 / 100 * 200) :=
  C3_adjusted_price_formula _ 50 1990 none 2000 2018 rfl rfl 100 200
    (by with_unfolding_all decide) (by with_unfolding_all decide)

/-- C3 counterexample: the index built from a source with the single
year 2000 is non-empty, yet the query with `to_year` omitted returns
nothing (2018 is absent after clamping), contradicting the claim that
the query returns the ratio formula on every non-empty index. -/
theorem C3_counterexample :
    (load_from_file ["DATE X", "2000-01-01 100"]).map
        (fun d => (d.get_adjusted_price 1 2000 none, d.year_cpi)) =
      some (none, [(2000, 100)]) := by
  with_unfolding_all decide

/-- C8 (amended): adjusting a price from year `y` to the same year `y`
returns the price unchanged, for `y` within `[first_year, last_year]`,
provided `y ≤ 2018` (above 2018 the target is clamped to 2018), `y` is
present in the index, and `cpi[y] ≠ 0`. -/
theorem C8_same_year_identity (d : CPIData) (p : ℚ) (y fy ly : Int) (c : ℚ)
    (hf : d.first_year = some fy) (hl : d.last_year = some ly)
    (h1 : fy ≤ y) (h2 : y ≤ ly) (h3 : y ≤ 2018)
    (hc : dictGet? d.year_cpi y = some c) (hc0 : c ≠ 0) :
    d.get_adjusted_price p y (some y) = some p := by
  have hcy : clampToYear (some y) = y := by
    unfold clampToYear
    dsimp only
    rw [if_neg (by omega)]
  have hfy : clampFromYear fy ly y = y := by
    unfold clampFromYear
    rw [if_neg (by omega), if_neg (by omega)]
  rw [get_adjusted_price_spec d p y (some y) fy ly hf hl c c
    (by rw [hfy]; exact hc) (by rw [hcy]; exact hc)]
  rw [div_mul_cancel₀ p hc0]

/-- C8 witness: index `{2005 ↦ 10}`, price 7, adjusted from 2005 to
2005. -/
theorem C8_witness :
    (⟨[(2005, 10)], some 2005, some 2005⟩ : CPIData).get_adjusted_price
        7 2005 (some 2005) = some 7 :=
  C8_same_year_identity _ 7 2005 2005 2005 10 rfl rfl (by decide) (by decide)
    (by decide) (by with_unfolding_all decide) (by with_unfolding_all decide)

/-- C8 counterexample: the index built from a source with the single
year 2019 has `2019 ∈ [first_year, last_year]`, yet adjusting 5 from
2019 to 2019 does not return 5 — the target year is clamped to 2018,
which is absent, so the query raises. -/
theorem C8_counterexample :
    (load_from_file ["DATE X", "2019-01-01 1"]).map
        (fun d => (d.first_year, d.last_year, d.get_adjusted_price 5 2019 (some 2019))) =
      some (some 2019, some 2019, none) := by
  with_unfolding_all decide

/-- C7 (amended): for every record that contains the `name` key, the
validator returns `true` iff the record has a truthy (non-empty /
non-zero) release date, original price, name and abbreviation, and
`false` otherwise, without mutating the record (the model is a pure
function of the record); a record lacking the `name` key can instead
raise a key-lookup error (see C10). -/
theorem C7_validator (p : List (String × PyVal)) (v : PyVal)
    (hname : recordGet? p "name" = some v) :
    is_valid_datset p =
      some (fieldOk p "release_date" && fieldOk p "original_price" &&
        fieldOk p "name" && fieldOk p "abbreviation") := by
  unfold is_valid_datset fieldOk
  rw [hname]
  cases h1 : fieldAbsent p "release_date" <;>
    cases h2 : fieldAbsent p "original_price" <;>
      cases h3 : fieldAbsent p "name" <;>
        cases h4 : fieldAbsent p "abbreviation" <;>
          simp [h1, h2, h3, h4]

/-- C7 witness: a complete record validates to `true`. -/
theorem C7_witness :
    is_valid_datset [("name", PyVal.vstr "NES"),
      ("release_date", PyVal.vstr "1983-07-15"),
      ("original_price", PyVal.vnum 179),
      ("abbreviation", PyVal.vstr "NES")] = some true := by
  rw [C7_validator _ (PyVal.vstr "NES") (by with_unfolding_all decide)]
  with_unfolding_all decide

/-- C7 counterexample: the claim says the validator returns `false`
for every record missing any of the four fields; the empty record
(missing all of them) instead raises a `KeyError` while formatting the
release-date diagnostic, because `name` is absent too. -/
theorem C7_counterexample : is_valid_datset [] = none := rfl

/-- C10 (amended): for a record lacking the `name` key, the validator
raises a key-lookup error iff the release-date check or the
original-price check fails (their diagnostics format the missing
`platform['name']`); when both checks pass it returns `false` cleanly
at the name check, never reaching the abbreviation check — so a
missing abbreviation alone does not raise. -/
theorem C10_nameless_validator (p : List (String × PyVal))
    (hname : recordGet? p "name" = none) :
    is_valid_datset p =
      if fieldAbsent p "release_date" || fieldAbsent p "original_price" then none
      else some false := by
  have h3 : fieldAbsent p "name" = true := by
    unfold fieldAbsent
    rw [hname]
  unfold is_valid_datset
  rw [hname]
  cases h1 : fieldAbsent p "release_date" <;>
    cases h2 : fieldAbsent p "original_price" <;>
      simp [h1, h2, h3]

/-- C10 witness: a record with only a release date (no price, no name)
raises. -/
theorem C10_witness :
    is_valid_datset [("release_date", PyVal.vstr "1995-09-09")] = none := by
  rw [C10_nameless_validator _ (by with_unfolding_all decide)]
  with_unfolding_all decide

/-- C10 counterexample: a record lacking `name` whose release-date and
price checks pass but whose abbreviation is missing. The claim says
the validator raises a key-lookup error whenever the abbreviation is
missing; it actually returns `false` at the name check without ever
reaching the abbreviation check. -/
theorem C10_counterexample :
    is_valid_datset [("release_date", PyVal.vstr "1995-09-09"),
      ("original_price", PyVal.vnum 299)] = some false := by
  with_unfolding_all decide

/-- C9: ingestion fails exactly when some data line after the header is
malformed — it cannot be split into at least two whitespace fields, its
year segment does not parse as an integer, or its CPI field does not
parse as a floating-point literal. In particular no malformed line is
ever skipped silently: a successful load means every data line parsed. -/
theorem C9_malformed_line_fails (lines : List String) :
    (load_from_file lines = none ↔
      ∃ l ∈ dataLines lines, parseDataLine l = none) ∧
    (∀ l : String, parseDataLine l = none ↔
      (lineFields l).length < 2 ∨
      pyParseInt (lineYearSeg l) = none ∨
      ∃ d1, (lineFields l)[1]? = some d1 ∧ pyParseFloat d1 = none) := by
  constructor
  · rw [load_from_file_eq lines, Option.map_eq_none']
    unfold extractObs
    exact mapM_option_eq_none parseDataLine (dataLines lines)
  · intro l
    unfold parseDataLine
    cases h0 : (lineFields l)[0]? with
    | none =>
      refine iff_of_true rfl (Or.inl ?_)
      have := List.getElem?_eq_none_iff.mp h0
      omega
    | some d0 =>
      cases hy : pyParseInt (lineYearSeg l) with
      | none => exact iff_of_true rfl (Or.inr (Or.inl rfl))
      | some year =>
        cases h1 : (lineFields l)[1]? with
        | none =>
          refine iff_of_true rfl (Or.inl ?_)
          have := List.getElem?_eq_none_iff.mp h1
          omega
        | some d1 =>
          dsimp only
          cases hfl : pyParseFloat d1 with
          | none => exact iff_of_true rfl (Or.inr (Or.inr ⟨d1, rfl, hfl⟩))
          | some cpi =>
            refine iff_of_false (fun h => Option.noConfusion h) ?_
            rintro (hlen | hyear | ⟨d1', hd1', hfl'⟩)
            · obtain ⟨hlt, _⟩ := List.getElem?_eq_some.mp h1
              omega
            · exact Option.noConfusion hyear
            · injection hd1' with he
              rw [← he, hfl] at hfl'
              exact Option.noConfusion hfl'

/-- C5 (amended): after a successful ingestion, `first_year` is the
year of the first data line and `last_year` is the year of the *final*
data line — the code overwrites `last_year` on every observation, so it
equals the maximum year only when the input is chronologically
non-decreasing, not "regardless of input order". -/
theorem C5_first_last (lines : List String) (d : CPIData)
    (o : Int × ℚ) (rest : List (Int × ℚ))
    (hload : load_from_file lines = some d)
    (hobs : extractObs lines = some (o :: rest)) :
    d.first_year = some o.1 ∧ d.last_year = some ((rest.getLastD o).1) := by
  rw [load_from_file_eq lines, hobs] at hload
  rw [Option.map_some'] at hload
  injection hload with hd
  rw [← hd]
  constructor
  · rw [finishLoad_first, List.foldl_cons]
    refine foldl_obsStep_first rest (obsStep dataInit o) o.1 ?_
    rw [obsStep_first]
    rfl
  · rw [finishLoad_last]
    exact foldl_obsStep_last rest dataInit o

/-- C5 witness: a two-line chronological source. -/
theorem C5_witness :
    (⟨[(2000, 1), (2001, 2)], some 2000, some 2001⟩ : CPIData).first_year = some 2000 ∧
    (⟨[(2000, 1), (2001, 2)], some 2000, some 2001⟩ : CPIData).last_year = some 2001 :=
  C5_first_last ["DATE X", "2000-01-01 1", "2001-02-02 2"] _ (2000, 1) [(2001, 2)]
    (by with_unfolding_all decide) (by with_unfolding_all decide)

/-- C5 counterexample: a source whose data lines carry years 2001 then
2000. The maximum year observed is 2001, but `last_year` ends up 2000
(the final line's year), refuting "last_year equals the maximum year
observed ... regardless of input order". -/
theorem C5_counterexample :
    extractObs ["DATE X", "2001-01-01 1", "2000-01-01 1"] =
      some [(2001, 1), (2000, 1)] ∧
    (load_from_file ["DATE X", "2001-01-01 1", "2000-01-01 1"]).map
        CPIData.last_year = some (some 2000) := by
  with_unfolding_all decide

/-- C2 (amended): for a source whose data lines with equal years are
contiguous (one block per year, the blocks' years pairwise distinct and
nonempty — in particular any chronologically ordered source), every
year `y` appearing in the data is mapped to the arithmetic mean of all
observations whose leading year segment is `y`, including the final
year (the post-loop flush). On sources where a year's lines are split
into several blocks the entry holds only the first block's mean (see
the counterexample), so the contiguity hypothesis is necessary. -/
theorem C2_grouped_year_mean (lines : List String) (d : CPIData)
    (groups : List (Int × List ℚ))
    (hload : load_from_file lines = some d)
    (hobs : extractObs lines = some (flatObs groups))
    (hnd : (groups.map Prod.fst).Nodup)
    (hne : ∀ g ∈ groups, g.2 ≠ [])
    (y : Int) (vs : List ℚ) (hy : (y, vs) ∈ groups) :
    dictGet? d.year_cpi y =
      some (listMean (((flatObs groups).filter (fun o => o.1 == y)).map Prod.snd)) := by
  rw [load_from_file_eq lines, hobs, Option.map_some'] at hload
  injection hload with hd
  rw [← hd, runObs_grouped_dict groups hnd hne,
    flatObs_filter groups y vs hnd hy]
  exact dictGet?_map_mean groups y vs hnd hy

/-- C2 witness: the source with years 2000 (values 100, 102) and 2001
(value 104); the entry for 2000 is the mean 101 of its observations,
and the final year 2001 is present with mean 104 thanks to the flush. -/
theorem C2_witness :
    dictGet? (⟨[(2000, 101), (2001, 104)], some 2000, some 2001⟩ : CPIData).year_cpi 2000 =
      some (listMean (((flatObs [(2000, [100, 102]), (2001, [104])]).filter
        (fun o => o.1 == 2000)).map Prod.snd)) :=
  C2_grouped_year_mean
    ["junk", "DATE X", "2000-01-01 100", "2000-06-01 102", "2001-01-01 104"]
    _ [(2000, [100, 102]), (2001, [104])]
    (by with_unfolding_all decide) (by with_unfolding_all decide)
    (by decide) (by with_unfolding_all decide) 2000 [100, 102]
    (by with_unfolding_all decide)

/-- C2 counterexample: a source whose year-2000 lines are interrupted
by a 2001 line. The observations for year 2000 are 100 and 102, whose
mean is 101, but the final index maps 2000 to 100 (the first block's
mean; the flush skips the final block because 2000 is already
present) — refuting the claim for arbitrary sources. -/
theorem C2_counterexample :
    extractObs ["DATE X", "2000-01-01 100", "2001-01-01 104", "2000-06-01 102"] =
      some [(2000, 100), (2001, 104), (2000, 102)] ∧
    (load_from_file ["DATE X", "2000-01-01 100", "2001-01-01 104", "2000-06-01 102"]).map
        (fun d => dictGet? d.year_cpi 2000) = some (some 100) ∧
    listMean [100, 102] = 101 := by
  with_unfolding_all decide

/-! ### C4: the pagination loop -/

theorem get_platforms_aux_continue {α : Type} (api : Nat → PageResponse α)
    (fuel nf : Nat) (nt : Option Nat) (offs : List Nat) (ys : List α)
    (total : Nat)
    (htotal : (match nt with
      | none => (api nf).number_of_total_results
      | some t => t) = total)
    (hcond : ¬total ≤ nf + (api nf).number_of_page_results) :
    get_platforms_aux api (fuel + 1) nf nt offs ys =
      get_platforms_aux api fuel (nf + (api nf).number_of_page_results)
        (some total) (offs ++ [nf]) (ys ++ (api nf).results) := by
  simp only [get_platforms_aux]
  rw [htotal, if_neg hcond]

theorem get_platforms_aux_stop {α : Type} (api : Nat → PageResponse α)
    (fuel nf : Nat) (nt : Option Nat) (offs : List Nat) (ys : List α)
    (total : Nat)
    (htotal : (match nt with
      | none => (api nf).number_of_total_results
      | some t => t) = total)
    (hcond : total ≤ nf + (api nf).number_of_page_results) :
    get_platforms_aux api (fuel + 1) nf nt offs ys =
      some (offs ++ [nf], ys ++ (api nf).results) := by
  simp only [get_platforms_aux]
  rw [htotal, if_pos hcond]

/-- C4: against a catalog of 250 records served in pages of at most 100
(any underlying record list of length 250, the reported total read from
the first response only — later responses may report anything), the
client issues exactly 3 requests with offsets 0, 100 and 200 (each
offset equals the number of records fetched so far) and yields exactly
the 250 records; any fuel bound of at least 3 iterations gives the same
result, so the loop terminates on its own after the third page. -/
theorem C4_pagination {α : Type} (catalog : List α) (totals : Nat → Nat)
    (k : Nat) (hlen : catalog.length = 250) (htotal : totals 0 = 250) :
    get_platforms (mockCatalog catalog totals) (k + 3) =
      some ([0, 100, 200], catalog) := by
  have hp0 : (mockCatalog catalog totals 0).number_of_page_results = 100 := by
    unfold mockCatalog
    dsimp only
    rw [List.drop_zero, List.length_take, hlen]
    decide
  have hr0 : (mockCatalog catalog totals 0).results = catalog.take 100 := by
    unfold mockCatalog
    dsimp only
    rw [List.drop_zero]
  have hp1 : (mockCatalog catalog totals (0 + 100)).number_of_page_results = 100 := by
    unfold mockCatalog
    dsimp only
    rw [List.length_take, List.length_drop, hlen]
    decide
  have hr1 : (mockCatalog catalog totals (0 + 100)).results =
      (catalog.drop 100).take 100 := rfl
  have hd2 : (catalog.drop (0 + 100 + 100)).length = 50 := by
    rw [List.length_drop, hlen]
  have hp2 : (mockCatalog catalog totals (0 + 100 + 100)).number_of_page_results = 50 := by
    unfold mockCatalog
    dsimp only
    rw [List.length_take, hd2]
    decide
  have hr2 : (mockCatalog catalog totals (0 + 100 + 100)).results =
      catalog.drop 200 := by
    unfold mockCatalog
    dsimp only
    rw [List.take_of_length_le (by rw [hd2]; omega)]
  have ht0 : (mockCatalog catalog totals 0).number_of_total_results = 250 := by
    unfold mockCatalog
    dsimp only
    rw [htotal]
  unfold get_platforms
  rw [show k + 3 = (k + 2) + 1 from rfl,
    get_platforms_aux_continue (mockCatalog catalog totals) (k + 2) 0 none [] []
      250 ht0 (by rw [hp0]; omega)]
  rw [hp0, hr0, List.nil_append, List.nil_append]
  rw [show k + 2 = (k + 1) + 1 from rfl,
    get_platforms_aux_continue (mockCatalog catalog totals) (k + 1) (0 + 100)
      (some 250) [0] (catalog.take 100) 250 rfl (by rw [hp1]; omega)]
  rw [hp1, hr1]
  rw [get_platforms_aux_stop (mockCatalog catalog totals) k (0 + 100 + 100)
      (some 250) ([0] ++ [0 + 100]) (catalog.take 100 ++ (catalog.drop 100).take 100)
      250 rfl (by rw [hp2])]
  rw [hr2]
  have hyields :
      catalog.take 100 ++ (catalog.drop 100).take 100 ++ catalog.drop 200 = catalog := by
    have h200 : catalog.drop 200 = (catalog.drop 100).drop 100 := by
      rw [List.drop_drop]
    rw [h200, List.append_assoc, List.take_append_drop, List.take_append_drop]
  rw [hyields]
  norm_num

/-- C4 witness: the catalog `0, 1, ..., 249` with every response
reporting a total of 250. -/
theorem C4_witness :
    get_platforms (mockCatalog (List.range 250) (fun _ => 250)) 3 =
      some ([0, 100, 200], List.range 250) :=
  C4_pagination (List.range 250) (fun _ => 250) 0 (by simp) rfl
